import Mathlib

/-!
# TaskManager: the client-side task synchronisation logic

A shallow embedding of `src/taskmanagement/src/TaskManager.js`.

The React component keeps five state variables (`tasks`, `search`, `task`,
`update`, `errorMsg`).  Every handler is an `async` function: it runs
synchronously up to its `await fetch(...)`, and its continuation runs when the
reply arrives.  Each handler is therefore embedded as

* a `...Start` function: the synchronous part, giving the state it leaves and
  the request it issues (if any), and
* a `...Finish` function: the continuation, which receives the reply, the values
  captured by the closure when the handler was called, and the state current at
  that moment;

the handler run with nothing happening in between is the composition of the two.
JavaScript strings are embedded as `String`; `trim` and `includes` are embedded on
the list of characters.  `toLowerCase` is a built-in driven by the Unicode case tables
of the JavaScript engine; it is a parameter of the embedding (`CaseMapping`).
-/

namespace TaskManager

/-! ## Data model -/

/-- A task record, as stored in the `tasks` array and exchanged with the server. -/
structure TaskRecord where
  customId : String
  name : String
  description : String
  dateCreated : String
deriving DecidableEq, Repr

/-- The `task` state variable: the form's edit buffer, `{ name, description }`. -/
structure Draft where
  name : String
  description : String
deriving DecidableEq, Repr

/-- The value held by the `tasks` state variable.  It starts as an array and
`addTask` only ever stores arrays, but `fetchTasks` stores whatever JSON value the
server sent, which is why `addTask` guards with `Array.isArray`.  `nonArr truthy`
stands for a JSON value that is not an array, with its JavaScript truthiness. -/
inductive TasksVal where
  | arr (ts : List TaskRecord)
  | nonArr (truthy : Bool)
deriving DecidableEq, Repr

/-- The component state: the five `useState` variables of `TaskManager`. -/
structure State where
  tasks : TasksVal
  search : String
  task : Draft
  update : Option String
  errorMsg : String
deriving DecidableEq, Repr

/-- The state at mount: `useState([])`, `useState("")`,
`useState({ name: "", description: "" })`, `useState(null)`, `useState("")`. -/
def initialState : State :=
  { tasks := .arr [], search := "", task := { name := "", description := "" },
    update := none, errorMsg := "" }

/-- The two readings of the clock a handler takes: `Date.now()` and
`new Date().toLocaleString()`. -/
structure Clock where
  now : Nat
  localeString : String
deriving DecidableEq, Repr

/-- The body of the PUT request built by `updateTask`: the draft with
`customId: update` (which is `null` outside edit mode) and a fresh `dateCreated`. -/
structure UpdatedData where
  name : String
  description : String
  customId : Option String
  dateCreated : String
deriving DecidableEq, Repr

/-- The HTTP requests the component issues. -/
inductive Request where
  | get
  | post (newTask : TaskRecord)
  | put (update : Option String) (updatedData : UpdatedData)
  | delete (customId : String)
deriving DecidableEq, Repr

/-- What comes back from `fetch`: the promise rejects (`transportError`), or it
resolves to a response with its `ok` flag and its body as parsed by
`response.json()` (`none` when the body is not valid JSON of the expected shape). -/
inductive Reply (α : Type) where
  | transportError
  | status (ok : Bool) (json : Option α)
deriving DecidableEq, Repr

/-- The request failed in the sense of the specification: a transport error or a
response whose status is not 2xx. -/
def Reply.failed {α : Type} : Reply α → Bool
  | .transportError => true
  | .status ok _ => !ok

/-! ## JavaScript string primitives -/

/-- ECMAScript `WhiteSpace` and `LineTerminator` code points, the characters
`String.prototype.trim` strips. -/
def isWhiteSpace (c : Char) : Bool :=
  let n := c.toNat
  n == 0x09 || n == 0x0A || n == 0x0B || n == 0x0C || n == 0x0D || n == 0x20 ||
  n == 0xA0 || n == 0x1680 || (0x2000 ≤ n && n ≤ 0x200A) || n == 0x2028 ||
  n == 0x2029 || n == 0x202F || n == 0x205F || n == 0x3000 || n == 0xFEFF

/-- `String.prototype.trim`: strip white space from both ends. -/
def trim (s : String) : String :=
  ⟨((s.data.dropWhile isWhiteSpace).reverse.dropWhile isWhiteSpace).reverse⟩

/-- Lower the ASCII letters `A` to `Z` of a string and leave every other character
as it is. -/
def asciiLower (s : String) : String :=
  ⟨s.data.map Char.toLower⟩

/-- Every character of the string is an ASCII character. -/
def isAscii (s : String) : Bool :=
  s.data.all (fun c => decide (c.toNat < 128))

/-- The built-in `String.prototype.toLowerCase`.  It is computed by the JavaScript
engine from the Unicode case tables, which are no part of the repository, so it is a
parameter of the embedding.  The field `ascii` records what the ECMAScript
specification fixes for strings of ASCII characters: the letters `A` to `Z` become
`a` to `z` and nothing else changes. -/
structure CaseMapping where
  toLowerCase : String → String
  ascii : ∀ s : String, isAscii s = true → toLowerCase s = asciiLower s

/-- `String.prototype.includes`: some position of `str` starts an occurrence of
`searchString`. -/
def includes (str searchString : String) : Bool :=
  str.data.tails.any (fun rest => searchString.data.isPrefixOf rest)

/-- JavaScript truthiness of the `update` state variable (`null` or a string):
`null` and the empty string are falsy. -/
def truthy : Option String → Bool
  | none => false
  | some u => u != ""

/-! ## fetchTasks (lines 15-28) -/

/-- The request issued on mount. -/
def fetchTasksStart (s : State) : State × Option Request :=
  (s, some .get)

/-- The continuation of `fetchTasks`: on an ok reply with a JSON body the body is
stored in `tasks`; anything else lands in the `catch`. -/
def fetchTasksFinish (reply : Reply TasksVal) (cur : State) : State :=
  match reply with
  | .status true (some tasks) => { cur with tasks := tasks }
  | _ => { cur with errorMsg := "Unable to fetch tasks. Please try again later." }

/-- The operation `load` run to completion. -/
def fetchTasks (s : State) (reply : Reply TasksVal) : State :=
  fetchTasksFinish reply (fetchTasksStart s).1

/-! ## addTask (lines 31-67) -/

/-- The synchronous part of `addTask`: return at once on a blank name, otherwise
build `newTask` and POST it.  No state variable is written. -/
def addTaskStart (clock : Clock) (s : State) : State × Option Request :=
  if trim s.task.name == "" then (s, none)
  else
    let newTask : TaskRecord :=
      { name := s.task.name, description := s.task.description,
        customId := toString clock.now, dateCreated := clock.localeString }
    (s, some (.post newTask))

/-- The continuation of `addTask`.  On success the functional update
`setTasks(prevTasks => [...prevTasks, saveTask])` runs on the state current at that
moment (with the `Array.isArray` fallback), the draft is reset and the error
cleared; on any failure only the error message is set. -/
def addTaskFinish (reply : Reply TaskRecord) (cur : State) : State :=
  match reply with
  | .status true (some saveTask) =>
      let prevTasks : List TaskRecord :=
        match cur.tasks with
        | .arr ts => ts
        | .nonArr _ => []
      { cur with
        tasks := .arr (prevTasks ++ [saveTask]),
        task := { name := "", description := "" },
        errorMsg := "" }
  | _ => { cur with errorMsg := "Server not available. Please try again later." }

/-- The operation `create` run to completion with nothing in between. -/
def addTask (clock : Clock) (s : State) (reply : Reply TaskRecord) : State :=
  match addTaskStart clock s with
  | (s1, some _) => addTaskFinish reply s1
  | (s1, none) => s1

/-! ## deleteTask (lines 70-87) -/

/-- The synchronous part of `deleteTask`: `setTasks(tasks.filter(...))` and then
the DELETE request.  When `tasks` is not an array `tasks.filter` throws before the
`try`, so nothing is written and nothing is sent. -/
def deleteTaskStart (s : State) (customId : String) : State × Option Request :=
  match s.tasks with
  | .arr ts =>
      ({ s with tasks := .arr (ts.filter (fun task => task.customId != customId)) },
       some (.delete customId))
  | .nonArr _ => (s, none)

/-- The continuation of `deleteTask`; `tasks` is the array the closure captured
when the handler was called.  An ok reply writes nothing; anything else sets the
error message and `setTasks([...tasks])`. -/
def deleteTaskFinish (tasks : List TaskRecord) (reply : Reply Unit) (cur : State) : State :=
  match reply with
  | .status true _ => cur
  | _ => { cur with errorMsg := "Error deleting task", tasks := .arr tasks }

/-- The operation `remove` run to completion with nothing in between. -/
def deleteTask (s : State) (customId : String) (reply : Reply Unit) : State :=
  match s.tasks with
  | .arr ts => deleteTaskFinish ts reply (deleteTaskStart s customId).1
  | .nonArr _ => s

/-! ## updateTask (lines 89-119) -/

/-- The synchronous part of `updateTask`: build `updatedData` and PUT it to
the URL ending in the value of `update`.  No state variable is written. -/
def updateTaskStart (clock : Clock) (s : State) : State × Option Request :=
  let updatedData : UpdatedData :=
    { name := s.task.name, description := s.task.description,
      customId := s.update, dateCreated := clock.localeString }
  (s, some (.put s.update updatedData))

/-- The continuation of `updateTask`; `cap` holds the values of `tasks` and
`update` the closure captured.  On success `tasks.map(...)` replaces every record
whose `customId === update`, the error is cleared, the draft reset and `update` set
to `null`.  When the captured `tasks` is not an array `tasks.map` throws inside the
`try`, which lands in the `catch` like a failed request. -/
def updateTaskFinish (cap : State) (reply : Reply TaskRecord) (cur : State) : State :=
  match reply with
  | .status true (some updatedTask) =>
      match cap.tasks with
      | .arr ts =>
          { cur with
            tasks := .arr (ts.map (fun task =>
              if some task.customId = cap.update then updatedTask else task)),
            errorMsg := "",
            task := { name := "", description := "" },
            update := none }
      | .nonArr _ => { cur with errorMsg := "Error updating task" }
  | _ => { cur with errorMsg := "Error updating task" }

/-- The operation `update` run to completion with nothing in between. -/
def updateTask (clock : Clock) (s : State) (reply : Reply TaskRecord) : State :=
  updateTaskFinish s reply (updateTaskStart clock s).1

/-! ## saveUpdatedTask (lines 120-126) and the form button (lines 154-159) -/

/-- The handler behind the Edit button: look up the first record with the given id
and, if there is one, load it into the draft and set `update`.  It issues no
request.  When `tasks` is not an array `tasks.find` throws and nothing is written. -/
def saveUpdatedTask (s : State) (customId : String) : State × Option Request :=
  match s.tasks with
  | .arr ts =>
      match ts.find? (fun t => t.customId == customId) with
      | some taskToEdit =>
          ({ s with
             task := { name := taskToEdit.name, description := taskToEdit.description },
             update := some customId }, none)
      | none => (s, none)
  | .nonArr _ => (s, none)

/-- The `onChange` of the search box: `setSearch(e.target.value)`. -/
def onSearchChange (s : State) (value : String) : State :=
  { s with search := value }

/-- The `onChange` of the name field: `setTask({ ...task, name: e.target.value })`. -/
def onNameChange (s : State) (value : String) : State :=
  { s with task := { s.task with name := value } }

/-- The `onChange` of the description field:
`setTask({ ...task, description: e.target.value })`. -/
def onDescriptionChange (s : State) (value : String) : State :=
  { s with task := { s.task with description := value } }

/-- The handlers the form button can be bound to. -/
inductive Handler where
  | updateTask
  | addTask
deriving DecidableEq, Repr

/-- The binding `onClick={update ? updateTask : addTask}`. -/
def onClick (s : State) : Handler :=
  if truthy s.update then .updateTask else .addTask

/-- The button caption `{update ? "Update Task" : "Add Task"}`. -/
def buttonLabel (s : State) : String :=
  if truthy s.update then "Update Task" else "Add Task"

/-! ## The task list (lines 163-165) -/

/-- The records rendered in the task list:
`(tasks || []).filter((t) => t.name.toLowerCase().includes(search.toLowerCase()))`,
with `J` the engine's `toLowerCase`.  A falsy `tasks` renders as the empty list; a
truthy value that is not an array has no `filter` method, so rendering throws
(`none`). -/
def displayedTasks (J : CaseMapping) (s : State) : Option (List TaskRecord) :=
  match s.tasks with
  | .arr ts =>
      some (ts.filter (fun t =>
        includes (J.toLowerCase t.name) (J.toLowerCase s.search)))
  | .nonArr false => some []
  | .nonArr true => none

/-! ## Specification-side definitions -/

/-- The filter as the specification words it: keep the tasks whose lower-cased name
has the lower-cased search string as a contiguous sublist of characters. -/
def specFilter (J : CaseMapping) (tasks : List TaskRecord) (search : String) :
    List TaskRecord :=
  tasks.filter (fun t =>
    decide ((J.toLowerCase search).data <:+: (J.toLowerCase t.name).data))

/-- Two characters are equal up to the case of an ASCII letter: they are the same
character, or one is a capital `A` to `Z` (codes 65 to 90) and the other is the
matching small letter (32 further on). -/
def sameLetter (c d : Char) : Bool :=
  c == d ||
  (decide (65 ≤ c.toNat) && decide (c.toNat ≤ 90) && d.toNat == c.toNat + 32) ||
  (decide (65 ≤ d.toNat) && decide (d.toNat ≤ 90) && c.toNat == d.toNat + 32)

/-- The number of positions at which two collections of the same length differ. -/
def changedPositions (before after : List TaskRecord) : Nat :=
  ((before.zip after).filter (fun p => p.1 != p.2)).length

/-! ## Concrete records and states used in the worked examples -/

/-- The record with id `1`, name `A`, empty description and timestamp `t1` of the
scenario in the specification. -/
def recA : TaskRecord :=
  { customId := "1", name := "A", description := "", dateCreated := "t1" }

/-- The record the server echoes in the scenario. -/
def recB : TaskRecord :=
  { customId := "2", name := "B", description := "", dateCreated := "t2" }

/-- The clock reading of the scenario. -/
def clockB : Clock :=
  { now := 2, localeString := "t2" }

/-- The state after the initial load returned `[A]`. -/
def loadedA : State :=
  fetchTasks initialState (.status true (some (.arr [recA])))

/-- The state `loadedA` after the user typed `B` into the name field. -/
def loadedATypedB : State :=
  onNameChange loadedA "B"

/-- A state holding a task and an earlier error message, in which the user typed a
space, a tab and a no-break space into the name field. -/
def blankDraftState : State :=
  onNameChange { loadedA with errorMsg := "Error deleting task" } " \t\u00A0"

/-- A state whose collection is `[A, B]`. -/
def twoTasks : State :=
  fetchTasks initialState (.status true (some (.arr [recA, recB])))

/-- The state `loadedA` after the Edit button of `A` was pressed. -/
def editingA : State :=
  (saveUpdatedTask loadedA "1").1

/-- A record whose `customId` is the empty string. -/
def recEmptyId : TaskRecord :=
  { customId := "", name := "A", description := "d", dateCreated := "t1" }

/-- The state after the initial load returned the record with the empty id. -/
def emptyIdState : State :=
  fetchTasks initialState (.status true (some (.arr [recEmptyId])))

/-- The record the server returns for `A` after a rename. -/
def recARenamed : TaskRecord :=
  { customId := "1", name := "A2", description := "", dateCreated := "t3" }

/-- A second record carrying the id `1`. -/
def recADuplicate : TaskRecord :=
  { customId := "1", name := "C", description := "", dateCreated := "t1" }

/-- The state reached from `[A, B]` by pressing Edit on `A` and then Delete on `A`,
the DELETE succeeding: `update` still holds the id `1`, which no record carries. -/
def editingRemoved : State :=
  deleteTask (saveUpdatedTask twoTasks "1").1 "1" (.status true none)

/-- The state reached when the initial load returned two records with the id `1`
and Edit was pressed on one of them. -/
def editingDuplicate : State :=
  (saveUpdatedTask
    (fetchTasks initialState (.status true (some (.arr [recA, recADuplicate])))) "1").1

/-- The state reached from `[A, B]` by pressing Edit on `A`. -/
def editingAOfTwo : State :=
  (saveUpdatedTask twoTasks "1").1

/-- The state reached from `editingAOfTwo` when, the PUT for `A` being sent and not
yet answered, Delete is pressed on `B` and the DELETE succeeds. -/
def editingAOfTwoBRemoved : State :=
  deleteTask (updateTaskStart clockB editingAOfTwo).1 "2" (.status true none)

/-- The task named `Buy milk`. -/
def recBuyMilk : TaskRecord :=
  { customId := "10", name := "Buy milk", description := "", dateCreated := "t1" }

/-- The task named `Walk dog`. -/
def recWalkDog : TaskRecord :=
  { customId := "11", name := "Walk dog", description := "", dateCreated := "t2" }

/-- The state after the initial load returned `Buy milk` and `Walk dog`. -/
def milkAndDog : State :=
  fetchTasks initialState (.status true (some (.arr [recBuyMilk, recWalkDog])))

/-- The case mapping that lowers the ASCII letters only. -/
def asciiCasing : CaseMapping :=
  { toLowerCase := asciiLower, ascii := fun _ _ => rfl }

/-- Lower an ASCII letter or a capital letter of the Latin-1 supplement (`U+00C0` to
`U+00DE` without the multiplication sign `U+00D7`), as the Unicode tables do. -/
def latin1LowerChar (c : Char) : Char :=
  if 0xC0 ≤ c.toNat ∧ c.toNat ≤ 0xDE ∧ c.toNat ≠ 0xD7 then Char.ofNat (c.toNat + 32)
  else c.toLower

/-- Lower the ASCII letters and the letters of the Latin-1 supplement of a string. -/
def latin1Lower (s : String) : String :=
  ⟨s.data.map latin1LowerChar⟩

/-- A case mapping that lowers the ASCII letters and the letters of the Latin-1
supplement. -/
def latin1Casing : CaseMapping :=
  { toLowerCase := latin1Lower,
    ascii := by
      intro s hs
      unfold asciiLower latin1Lower
      congr 1
      apply List.map_congr_left
      intro c hc
      have h : c.toNat < 128 := by
        have := List.all_eq_true.mp hs c hc
        simpa using this
      unfold latin1LowerChar
      rw [if_neg (by omega)] }

/-- The task named `ÉCOLE`. -/
def recEcole : TaskRecord :=
  { customId := "12", name := "ÉCOLE", description := "", dateCreated := "t3" }

/-- The state after the initial load returned `Buy milk` and `ÉCOLE`, with `école`
typed into the search box. -/
def ecoleSearch : State :=
  onSearchChange
    (fetchTasks initialState (.status true (some (.arr [recBuyMilk, recEcole])))) "école"

end TaskManager

namespace TaskManager

/-! ## Lemmas on the string primitives -/

theorem string_mk_eq_empty (l : List Char) : (String.mk l = "") ↔ l = [] := by
  simp [String.ext_iff]

theorem all_of_dropWhile_all {α : Type} (p : α → Bool) (l : List α)
    (h : ∀ x ∈ l.dropWhile p, p x = true) : ∀ x ∈ l, p x = true := by
  by_cases hn : l.dropWhile p = []
  · exact List.dropWhile_eq_nil_iff.mp hn
  · have h1 := List.head_dropWhile_not p l hn
    have h2 := h _ (List.head_mem hn)
    rw [h1] at h2
    exact absurd h2 (by simp)

/-- The trimmed string is empty exactly when every character is white space. -/
theorem trim_eq_empty_iff (s : String) :
    trim s = "" ↔ ∀ c ∈ s.data, isWhiteSpace c = true := by
  unfold trim
  rw [string_mk_eq_empty, List.reverse_eq_nil_iff, List.dropWhile_eq_nil_iff]
  constructor
  · intro h
    apply all_of_dropWhile_all
    intro x hx
    exact h x (List.mem_reverse.mpr hx)
  · intro h x hx
    exact h x ((List.dropWhile_sublist isWhiteSpace).subset (List.mem_reverse.mp hx))

/-- The embedded `includes` decides the contiguous-sublist relation. -/
theorem includes_iff (str searchString : String) :
    includes str searchString = true ↔ searchString.data <:+: str.data := by
  unfold includes
  rw [List.any_eq_true, List.infix_iff_prefix_suffix]
  constructor
  · rintro ⟨rest, hmem, hpre⟩
    exact ⟨rest, List.isPrefixOf_iff_prefix.mp hpre, (List.mem_tails _ _).mp hmem⟩
  · rintro ⟨rest, hpre, hsuf⟩
    exact ⟨rest, (List.mem_tails _ _).mpr hsuf, List.isPrefixOf_iff_prefix.mpr hpre⟩

/-- The test `task.customId !== customId` as a decidable proposition. -/
theorem filter_bne_customId (ts : List TaskRecord) (customId : String) :
    ts.filter (fun task => task.customId != customId) =
      ts.filter (fun t => decide (t.customId ≠ customId)) := by
  apply List.filter_congr
  intro t _
  by_cases h : t.customId = customId <;> simp [h]

/-- The synchronous part of `deleteTask` on an array. -/
theorem deleteTaskStart_arr (s : State) (ts : List TaskRecord) (customId : String)
    (hts : s.tasks = .arr ts) :
    deleteTaskStart s customId =
      ({ s with tasks := .arr (ts.filter (fun t => decide (t.customId ≠ customId))) },
       some (.delete customId)) := by
  simp only [deleteTaskStart, hts, filter_bne_customId]

/-- The whole of `addTask` on a draft with a non-blank name and an ok reply. -/
theorem addTask_ok (clock : Clock) (s : State) (r : TaskRecord)
    (hname : trim s.task.name ≠ "") :
    addTask clock s (.status true (some r)) = addTaskFinish (.status true (some r)) s := by
  simp [addTask, addTaskStart, hname]

/-! ## create -/

/-- C1: for every local task collection `ts` and every draft whose name is non-empty
after trimming, when `addTask` runs and the POST succeeds with server record `r`, the
resulting collection is exactly `ts` followed by `r`: its size is the previous size
plus one, its last element is `r`, and the earlier elements are the previous ones in
the same order. -/
theorem addTask_success_appends (clock : Clock) (s : State) (ts : List TaskRecord)
    (r : TaskRecord) (hts : s.tasks = .arr ts) (hname : trim s.task.name ≠ "") :
    ∃ ts', (addTask clock s (.status true (some r))).tasks = .arr ts' ∧
      ts' = ts ++ [r] ∧
      ts'.length = ts.length + 1 ∧
      ts'.getLast? = some r ∧
      ts'.take ts.length = ts := by
  refine ⟨ts ++ [r], ?_, rfl, by simp, by simp, by simp⟩
  simp [addTask, addTaskStart, addTaskFinish, hname, hts]

/-- The scenario of the specification: the collection `[A]` and the server echo `B`
give `[A, B]`. -/
theorem addTask_success_appends_witness :
    (loadedATypedB.tasks = .arr [recA] ∧ trim loadedATypedB.task.name ≠ "") ∧
    (addTask clockB loadedATypedB (.status true (some recB))).tasks = .arr [recA, recB] ∧
    ∃ ts', (addTask clockB loadedATypedB (.status true (some recB))).tasks = .arr ts' ∧
      ts' = [recA] ++ [recB] ∧
      ts'.length = [recA].length + 1 ∧
      ts'.getLast? = some recB ∧
      ts'.take [recA].length = [recA] :=
  ⟨⟨by decide, by decide⟩, by decide,
    addTask_success_appends clockB loadedATypedB [recA] recB (by decide) (by decide)⟩

/-- C2: for every state whose draft name is empty or consists only of white space,
`addTask` is a no-op: no request is sent and the state (task collection, draft,
editing id, error message) is what it was, whatever the server would have replied. -/
theorem addTask_blank_noop (clock : Clock) (s : State) (reply : Reply TaskRecord)
    (hblank : ∀ c ∈ s.task.name.data, isWhiteSpace c = true) :
    (addTaskStart clock s).2 = none ∧
    addTask clock s reply = s ∧
    (addTask clock s reply).tasks = s.tasks ∧
    (addTask clock s reply).task = s.task ∧
    (addTask clock s reply).update = s.update ∧
    (addTask clock s reply).errorMsg = s.errorMsg := by
  have h : trim s.task.name = "" := (trim_eq_empty_iff _).mpr hblank
  have h2 : addTask clock s reply = s := by simp [addTask, addTaskStart, h]
  refine ⟨by simp [addTaskStart, h], h2, ?_, ?_, ?_, ?_⟩ <;> rw [h2]

/-- The no-op at a draft name made of a space, a tab and a no-break space. -/
theorem addTask_blank_noop_witness :
    (∀ c ∈ blankDraftState.task.name.data, isWhiteSpace c = true) ∧
    (addTaskStart clockB blankDraftState).2 = none ∧
    addTask clockB blankDraftState (.status true (some recB)) = blankDraftState :=
  ⟨by decide,
   (addTask_blank_noop clockB blankDraftState (.status true (some recB)) (by decide)).1,
   (addTask_blank_noop clockB blankDraftState (.status true (some recB)) (by decide)).2.1⟩

/-! ## remove -/

/-- C4: for every local task collection `ts` and every id present in it, the
synchronous part of `deleteTask`, which runs before any reply exists, sets the
collection to `ts` without the records carrying that id: no remaining record has the
id, every record with a different id is kept, and the kept records are in their
original relative order. -/
theorem deleteTask_removes_immediately (s : State) (ts : List TaskRecord)
    (customId : String) (hts : s.tasks = .arr ts)
    (hpresent : ∃ t ∈ ts, t.customId = customId) :
    ∃ ts', (deleteTaskStart s customId).1.tasks = .arr ts' ∧
      (deleteTaskStart s customId).2 = some (.delete customId) ∧
      ts' = ts.filter (fun t => decide (t.customId ≠ customId)) ∧
      (∀ t ∈ ts', t.customId ≠ customId) ∧
      (∀ t ∈ ts, t.customId ≠ customId → t ∈ ts') ∧
      ts'.Sublist ts ∧
      ts'.length < ts.length := by
  refine ⟨ts.filter (fun t => decide (t.customId ≠ customId)), ?_, ?_, rfl, ?_, ?_,
    List.filter_sublist _, ?_⟩
  · rw [deleteTaskStart_arr s ts customId hts]
  · rw [deleteTaskStart_arr s ts customId hts]
  · intro t ht
    simpa using (List.mem_filter.mp ht).2
  · intro t ht hne
    exact List.mem_filter.mpr ⟨ht, by simpa using hne⟩
  · obtain ⟨t, ht, hid⟩ := hpresent
    exact List.length_filter_lt_length_iff_exists.mpr ⟨t, ht, by simp [hid]⟩

/-- Removing the record with id `1` from `[A, B]` leaves `[B]` at once. -/
theorem deleteTask_removes_immediately_witness :
    (twoTasks.tasks = .arr [recA, recB] ∧ ∃ t ∈ [recA, recB], t.customId = "1") ∧
    (deleteTaskStart twoTasks "1").1.tasks = .arr [recB] ∧
    ∃ ts', (deleteTaskStart twoTasks "1").1.tasks = .arr ts' ∧
      (deleteTaskStart twoTasks "1").2 = some (.delete "1") ∧
      ts' = [recA, recB].filter (fun t => decide (t.customId ≠ "1")) ∧
      (∀ t ∈ ts', t.customId ≠ "1") ∧
      (∀ t ∈ [recA, recB], t.customId ≠ "1" → t ∈ ts') ∧
      ts'.Sublist [recA, recB] ∧
      ts'.length < [recA, recB].length :=
  ⟨⟨by decide, recA, by decide, by decide⟩, by decide,
    deleteTask_removes_immediately twoTasks [recA, recB] "1" (by decide)
      ⟨recA, by decide, by decide⟩⟩

/-- C5: for every local task collection and every id, if the DELETE request of
`deleteTask` fails (transport error or a response that is not ok) and nothing else
ran in between, the collection after the failure equals the collection as it was
before `deleteTask` was called, and the error message is set to a non-empty text. -/
theorem deleteTask_failure_restores (s : State) (ts : List TaskRecord)
    (customId : String) (reply : Reply Unit) (hts : s.tasks = .arr ts)
    (hfail : reply.failed = true) :
    (deleteTaskStart s customId).2 = some (.delete customId) ∧
    (deleteTask s customId reply).tasks = .arr ts ∧
    (deleteTask s customId reply).tasks = s.tasks ∧
    (deleteTask s customId reply).errorMsg = "Error deleting task" ∧
    (deleteTask s customId reply).errorMsg ≠ "" := by
  cases reply with
  | transportError => simp [deleteTask, deleteTaskStart, deleteTaskFinish, hts]
  | status ok json =>
      cases ok with
      | true => simp [Reply.failed] at hfail
      | false => simp [deleteTask, deleteTaskStart, deleteTaskFinish, hts]

/-- A DELETE for the record with id `1` of `[A, B]` answered by a response that is
not ok: the collection is `[A, B]` again and the error is shown. -/
theorem deleteTask_failure_restores_witness :
    (twoTasks.tasks = .arr [recA, recB] ∧
      (Reply.status false none : Reply Unit).failed = true) ∧
    (deleteTaskStart twoTasks "1").1.tasks = .arr [recB] ∧
    (deleteTask twoTasks "1" (.status false none)).tasks = .arr [recA, recB] ∧
    (deleteTask twoTasks "1" (.status false none)).errorMsg ≠ "" :=
  ⟨⟨by decide, by decide⟩, by decide,
    (deleteTask_failure_restores twoTasks [recA, recB] "1" (.status false none)
      (by decide) (by decide)).2.1,
    (deleteTask_failure_restores twoTasks [recA, recB] "1" (.status false none)
      (by decide) (by decide)).2.2.2.2⟩

/-- C10: when the DELETE request of `deleteTask` fails, the collection is set to the
whole snapshot taken when `deleteTask` was called, whatever the collection is at that
moment.  In particular, when an `addTask` is started after the removal and its POST
succeeds with a record `r` (not in the snapshot) before the DELETE fails, `r` is in
the collection before the rollback and absent from it after the rollback. -/
theorem deleteTask_rollback_is_snapshot (clock : Clock) (s : State)
    (ts : List TaskRecord) (customId : String) (r : TaskRecord)
    (reply : Reply Unit) (hts : s.tasks = .arr ts)
    (hname : trim s.task.name ≠ "") (hfail : reply.failed = true) (hr : r ∉ ts) :
    (∀ cur : State, (deleteTaskFinish ts reply cur).tasks = .arr ts) ∧
    (addTaskStart clock (deleteTaskStart s customId).1).2.isSome = true ∧
    (addTask clock (deleteTaskStart s customId).1 (.status true (some r))).tasks =
      .arr (ts.filter (fun t => decide (t.customId ≠ customId)) ++ [r]) ∧
    (deleteTaskFinish ts reply
      (addTask clock (deleteTaskStart s customId).1 (.status true (some r)))).tasks =
      .arr ts ∧
    ∀ ts', (deleteTaskFinish ts reply
      (addTask clock (deleteTaskStart s customId).1 (.status true (some r)))).tasks =
      .arr ts' → r ∉ ts' := by
  have hroll : ∀ cur : State, (deleteTaskFinish ts reply cur).tasks = .arr ts := by
    intro cur
    cases reply with
    | transportError => simp [deleteTaskFinish]
    | status ok json =>
        cases ok with
        | true => simp [Reply.failed] at hfail
        | false => simp [deleteTaskFinish]
  have hname' : trim (deleteTaskStart s customId).1.task.name ≠ "" := by
    rw [deleteTaskStart_arr s ts customId hts]
    exact hname
  refine ⟨hroll, ?_, ?_, hroll _, ?_⟩
  · simp [addTaskStart, hname']
  · rw [addTask_ok clock _ r hname', deleteTaskStart_arr s ts customId hts]
    rfl
  · intro ts' h
    rw [hroll] at h
    cases h
    exact hr

/-- The interleaving on `[A]`: remove `A`, create `B` successfully, then the DELETE
fails; the collection goes `[A]`, `[]`, `[B]`, `[A]`, and `B` is lost. -/
theorem deleteTask_rollback_is_snapshot_witness :
    (loadedATypedB.tasks = .arr [recA] ∧ trim loadedATypedB.task.name ≠ "" ∧
      (Reply.transportError : Reply Unit).failed = true ∧ recB ∉ [recA]) ∧
    (deleteTaskStart loadedATypedB "1").1.tasks = .arr [] ∧
    (addTask clockB (deleteTaskStart loadedATypedB "1").1
      (.status true (some recB))).tasks = .arr [recB] ∧
    (deleteTaskFinish [recA] .transportError
      (addTask clockB (deleteTaskStart loadedATypedB "1").1
        (.status true (some recB)))).tasks = .arr [recA] ∧
    ∀ ts', (deleteTaskFinish [recA] .transportError
      (addTask clockB (deleteTaskStart loadedATypedB "1").1
        (.status true (some recB)))).tasks = .arr ts' → recB ∉ ts' :=
  ⟨⟨by decide, by decide, by decide, by decide⟩, by decide, by decide, by decide,
    (deleteTask_rollback_is_snapshot clockB loadedATypedB [recA] "1" recB .transportError
      (by decide) (by decide) (by decide) (by decide)).2.2.2.2⟩

/-! ## Failed create and update requests -/

/-- C8: for every state, if the request issued by `addTask` (there is one when the
draft name is not blank) or by `updateTask` fails (transport error or a response that
is not ok), then the task collection is unchanged, the draft is not cleared, the
editing id is unchanged (so the form button stays bound to the same handler), and
the error message is set to a non-empty text. -/
theorem failed_request_keeps_state (clock : Clock) (s : State)
    (reply : Reply TaskRecord) (hfail : reply.failed = true) :
    ((addTaskStart clock s).2.isSome = true →
      (addTask clock s reply).tasks = s.tasks ∧
      (addTask clock s reply).task = s.task ∧
      (addTask clock s reply).update = s.update ∧
      onClick (addTask clock s reply) = onClick s ∧
      (addTask clock s reply).errorMsg = "Server not available. Please try again later." ∧
      (addTask clock s reply).errorMsg ≠ "") ∧
    ((updateTaskStart clock s).2.isSome = true ∧
      (updateTask clock s reply).tasks = s.tasks ∧
      (updateTask clock s reply).task = s.task ∧
      (updateTask clock s reply).update = s.update ∧
      onClick (updateTask clock s reply) = onClick s ∧
      (updateTask clock s reply).errorMsg = "Error updating task" ∧
      (updateTask clock s reply).errorMsg ≠ "") := by
  have hadd : (addTaskStart clock s).2.isSome = true →
      addTask clock s reply =
        { s with errorMsg := "Server not available. Please try again later." } := by
    intro hreq
    by_cases hname : trim s.task.name = ""
    · simp [addTaskStart, hname] at hreq
    · cases reply with
      | transportError => simp [addTask, addTaskStart, addTaskFinish, hname]
      | status ok json =>
          cases ok with
          | true => simp [Reply.failed] at hfail
          | false => simp [addTask, addTaskStart, addTaskFinish, hname]
  have hupd : updateTask clock s reply = { s with errorMsg := "Error updating task" } := by
    cases reply with
    | transportError => simp [updateTask, updateTaskStart, updateTaskFinish]
    | status ok json =>
        cases ok with
        | true => simp [Reply.failed] at hfail
        | false => simp [updateTask, updateTaskStart, updateTaskFinish]
  refine ⟨?_, ?_⟩
  · intro hreq
    rw [hadd hreq]
    simp [onClick]
  · rw [hupd]
    simp [onClick, updateTaskStart]

/-- A failed POST of the draft `B` and a failed PUT while `A` is being edited. -/
theorem failed_request_keeps_state_witness :
    ((Reply.status false none : Reply TaskRecord).failed = true ∧
      (addTaskStart clockB loadedATypedB).2.isSome = true) ∧
    (addTask clockB loadedATypedB (.status false none)).tasks = .arr [recA] ∧
    (addTask clockB loadedATypedB (.status false none)).task =
      { name := "B", description := "" } ∧
    (addTask clockB loadedATypedB (.status false none)).errorMsg ≠ "" ∧
    (updateTask clockB editingA (.status false none)).tasks = .arr [recA] ∧
    (updateTask clockB editingA (.status false none)).task =
      { name := "A", description := "" } ∧
    (updateTask clockB editingA (.status false none)).update = some "1" ∧
    (updateTask clockB editingA (.status false none)).errorMsg ≠ "" :=
  ⟨⟨by decide, by decide⟩, by decide, by decide,
    ((failed_request_keeps_state clockB loadedATypedB (.status false none)
      (by decide)).1 (by decide)).2.2.2.2.2,
    by decide, by decide, by decide,
    (failed_request_keeps_state clockB editingA (.status false none)
      (by decide)).2.2.2.2.2.2.2⟩

/-! ## beginEdit -/

/-- C9 as amended: for every local task collection `ts` and every non-empty id of a
task in it, `saveUpdatedTask` sets the draft to the name and description of the
first record of `ts` with that id, sets `update` to the id so that the form button is
bound to `updateTask`, leaves the task collection (and the search string and error
message) as they were, and issues no request. -/
theorem saveUpdatedTask_begins_edit (s : State) (ts : List TaskRecord)
    (customId : String) (hts : s.tasks = .arr ts)
    (hpresent : ∃ t ∈ ts, t.customId = customId) (hne : customId ≠ "") :
    ∃ t, ts.find? (fun t => t.customId == customId) = some t ∧
      t ∈ ts ∧ t.customId = customId ∧
      (saveUpdatedTask s customId).1.task =
        { name := t.name, description := t.description } ∧
      (saveUpdatedTask s customId).1.update = some customId ∧
      onClick (saveUpdatedTask s customId).1 = .updateTask ∧
      buttonLabel (saveUpdatedTask s customId).1 = "Update Task" ∧
      (saveUpdatedTask s customId).1.tasks = s.tasks ∧
      (saveUpdatedTask s customId).1.search = s.search ∧
      (saveUpdatedTask s customId).1.errorMsg = s.errorMsg ∧
      (saveUpdatedTask s customId).2 = none := by
  obtain ⟨t0, ht0, hid0⟩ := hpresent
  have hsome : (ts.find? (fun t => t.customId == customId)).isSome = true :=
    List.find?_isSome.mpr ⟨t0, ht0, by simp [hid0]⟩
  obtain ⟨t, ht⟩ := Option.isSome_iff_exists.mp hsome
  have hid : t.customId = customId := by simpa using List.find?_some ht
  refine ⟨t, ht, List.mem_of_find?_eq_some ht, hid, ?_⟩
  simp [saveUpdatedTask, hts, ht, onClick, buttonLabel, truthy, hne]

/-- Editing `B` in `[A, B]`. -/
theorem saveUpdatedTask_begins_edit_witness :
    (twoTasks.tasks = .arr [recA, recB] ∧ (∃ t ∈ [recA, recB], t.customId = "2") ∧
      ("2" : String) ≠ "") ∧
    (saveUpdatedTask twoTasks "2").1.task = { name := "B", description := "" } ∧
    ∃ t, [recA, recB].find? (fun t => t.customId == "2") = some t ∧
      t ∈ [recA, recB] ∧ t.customId = "2" ∧
      (saveUpdatedTask twoTasks "2").1.task =
        { name := t.name, description := t.description } ∧
      (saveUpdatedTask twoTasks "2").1.update = some "2" ∧
      onClick (saveUpdatedTask twoTasks "2").1 = .updateTask ∧
      buttonLabel (saveUpdatedTask twoTasks "2").1 = "Update Task" ∧
      (saveUpdatedTask twoTasks "2").1.tasks = twoTasks.tasks ∧
      (saveUpdatedTask twoTasks "2").1.search = twoTasks.search ∧
      (saveUpdatedTask twoTasks "2").1.errorMsg = twoTasks.errorMsg ∧
      (saveUpdatedTask twoTasks "2").2 = none :=
  ⟨⟨by decide, ⟨recB, by decide, by decide⟩, by decide⟩, by decide,
    saveUpdatedTask_begins_edit twoTasks [recA, recB] "2" (by decide)
      ⟨recB, by decide, by decide⟩ (by decide)⟩

/-- C9 as stated fails at the empty id: with a collection holding a record whose
`customId` is the empty string, `saveUpdatedTask` loads the draft and stores the
empty string in `update`, which is falsy, so the form button is still bound to
`addTask` and still reads `Add Task`: edit mode is not active. -/
theorem saveUpdatedTask_empty_id_not_editing :
    emptyIdState.tasks = .arr [recEmptyId] ∧
    (∃ t ∈ [recEmptyId], t.customId = "") ∧
    (saveUpdatedTask emptyIdState "").1.task = { name := "A", description := "d" } ∧
    (saveUpdatedTask emptyIdState "").1.update = some "" ∧
    onClick (saveUpdatedTask emptyIdState "").1 = .addTask ∧
    buttonLabel (saveUpdatedTask emptyIdState "").1 = "Add Task" ∧
    ¬ onClick (saveUpdatedTask emptyIdState "").1 = .updateTask := by
  decide

/-! ## update -/

/-- A collection differs from itself at no position. -/
theorem changedPositions_self (l : List TaskRecord) : changedPositions l l = 0 := by
  induction l with
  | nil => rfl
  | cons a l ih =>
      simpa [changedPositions, List.filter_cons] using ih

/-- Putting `r` at one position changes that position, unless `r` was there. -/
theorem changedPositions_set (l : List TaskRecord) (i : Nat) (t r : TaskRecord)
    (h : l[i]? = some t) :
    changedPositions l (l.set i r) = if t = r then 0 else 1 := by
  induction l generalizing i with
  | nil => simp at h
  | cons a l ih =>
      cases i with
      | zero =>
          simp only [List.getElem?_cons_zero, Option.some.injEq] at h
          subst h
          have h0 := changedPositions_self l
          unfold changedPositions at h0 ⊢
          by_cases hr : a = r
          · simp [List.filter_cons, hr]
            simpa using h0
          · simp [List.filter_cons, hr]
            simpa using h0
      | succ j =>
          simp only [List.getElem?_cons_succ] at h
          have ih' := ih j h
          unfold changedPositions at ih' ⊢
          simpa [List.filter_cons] using ih'

/-- When exactly one record satisfies the test, replacing every record that satisfies
it is the same as setting one position. -/
theorem map_replace_eq_set (p : TaskRecord → Bool) (r : TaskRecord)
    (l : List TaskRecord) (h : l.countP p = 1) :
    ∃ i t, l[i]? = some t ∧ p t = true ∧
      l.map (fun t => if p t = true then r else t) = l.set i r := by
  induction l with
  | nil => simp at h
  | cons a l ih =>
      by_cases ha : p a = true
      · have h0 : l.countP p = 0 := by
          rw [List.countP_cons_of_pos _ _ ha] at h
          omega
        have hnone : ∀ x ∈ l, ¬ p x = true := List.countP_eq_zero.mp h0
        refine ⟨0, a, by simp, ha, ?_⟩
        have hmap : l.map (fun t => if p t = true then r else t) = l := by
          conv_rhs => rw [← List.map_id l]
          apply List.map_congr_left
          intro x hx
          simp [hnone x hx]
        simp [ha, hmap]
      · rw [List.countP_cons_of_neg _ _ ha] at h
        obtain ⟨i, t, hi, hp, hmap⟩ := ih h
        exact ⟨i + 1, t, by simpa using hi, hp, by simp [ha, hmap]⟩

/-- C3 as amended: for every local task collection `ts` and every editing id, when
`updateTask` is called on that collection and succeeds with server record `r`, the
resulting collection is the collection as it was when `updateTask` was called (the
current one when nothing else ran in between, and whatever the current one is
otherwise) with every record whose id equals the editing id replaced by `r`: it has
the same length and order, every record whose id differs from the editing id is
identical to before, and every record whose id equals the editing id is `r`.  When
exactly one record has the editing id, the result is `ts` with that one position set
to `r`, so that exactly one position changes if `r` differs from the record it
replaces (and none if it does not). -/
theorem updateTask_success_replaces (clock : Clock) (s cur : State)
    (ts : List TaskRecord) (customId : String) (r : TaskRecord)
    (hts : s.tasks = .arr ts) (hupdate : s.update = some customId) :
    ∃ ts', (updateTask clock s (.status true (some r))).tasks = .arr ts' ∧
      (updateTaskFinish s (.status true (some r)) cur).tasks = .arr ts' ∧
      ts' = ts.map (fun t => if t.customId = customId then r else t) ∧
      ts'.length = ts.length ∧
      (∀ (i : Nat) (t : TaskRecord), ts[i]? = some t → t.customId ≠ customId →
        ts'[i]? = some t) ∧
      (∀ (i : Nat) (t : TaskRecord), ts[i]? = some t → t.customId = customId →
        ts'[i]? = some r) ∧
      (ts.countP (fun t => t.customId == customId) = 1 →
        ∃ (i : Nat) (t : TaskRecord), ts[i]? = some t ∧ t.customId = customId ∧
          ts' = ts.set i r ∧
          changedPositions ts ts' = if t = r then 0 else 1) := by
  refine ⟨ts.map (fun t => if t.customId = customId then r else t), ?_, ?_, rfl, by simp,
    ?_, ?_, ?_⟩
  · simp [updateTask, updateTaskStart, updateTaskFinish, hts, hupdate]
  · simp [updateTaskFinish, hts, hupdate]
  · intro i t hi hne
    simp [List.getElem?_map, hi, hne]
  · intro i t hi heq
    simp [List.getElem?_map, hi, heq]
  · intro hcount
    obtain ⟨i, t, hi, hp, hmap⟩ :=
      map_replace_eq_set (fun t => t.customId == customId) r ts hcount
    have hmap' : ts.map (fun t => if t.customId = customId then r else t) = ts.set i r := by
      rw [← hmap]
      apply List.map_congr_left
      intro x _
      simp
    refine ⟨i, t, hi, by simpa using hp, hmap', ?_⟩
    rw [hmap']
    exact changedPositions_set ts i t r hi

/-- Editing `A` in `[A, B]` and receiving `A` renamed from the server: the result is
`[A renamed, B]`, with `B` untouched, both when nothing ran in between and when `B`
was removed while the PUT was pending. -/
theorem updateTask_success_replaces_witness :
    (editingAOfTwo.tasks = .arr [recA, recB] ∧ editingAOfTwo.update = some "1") ∧
    (updateTask clockB editingAOfTwo (.status true (some recARenamed))).tasks =
      .arr [recARenamed, recB] ∧
    editingAOfTwoBRemoved.tasks = .arr [recA] ∧
    (updateTaskFinish editingAOfTwo (.status true (some recARenamed))
      editingAOfTwoBRemoved).tasks = .arr [recARenamed, recB] ∧
    changedPositions [recA, recB] [recARenamed, recB] = 1 ∧
    ∃ ts', (updateTask clockB editingAOfTwo (.status true (some recARenamed))).tasks =
        .arr ts' ∧
      (updateTaskFinish editingAOfTwo (.status true (some recARenamed))
        editingAOfTwoBRemoved).tasks = .arr ts' ∧
      ts' = [recA, recB].map (fun t => if t.customId = "1" then recARenamed else t) ∧
      ts'.length = [recA, recB].length ∧
      (∀ (i : Nat) (t : TaskRecord), [recA, recB][i]? = some t → t.customId ≠ "1" →
        ts'[i]? = some t) ∧
      (∀ (i : Nat) (t : TaskRecord), [recA, recB][i]? = some t → t.customId = "1" →
        ts'[i]? = some recARenamed) ∧
      ([recA, recB].countP (fun t => t.customId == "1") = 1 →
        ∃ (i : Nat) (t : TaskRecord), [recA, recB][i]? = some t ∧ t.customId = "1" ∧
          ts' = [recA, recB].set i recARenamed ∧
          changedPositions [recA, recB] ts' = if t = recARenamed then 0 else 1) :=
  ⟨⟨by decide, by decide⟩, by decide, by decide, by decide, by decide,
    updateTask_success_replaces clockB editingAOfTwo editingAOfTwoBRemoved [recA, recB]
      "1" recARenamed (by decide) (by decide)⟩

/-- C3 as stated fails: a successful `updateTask` need not change exactly one
position, and the records it leaves alone are those of the collection captured at the
call.  When the record being edited was removed in the meantime the editing id
matches no record and no position changes; when two records carry the editing id
both positions change; and when `B` was removed from `[A, B]` while the PUT for `A`
was pending, the current collection `[A]` is replaced by `[A renamed, B]`, which is
longer. -/
theorem updateTask_not_exactly_one_position :
    (editingRemoved.tasks = .arr [recB] ∧ editingRemoved.update = some "1" ∧
      (updateTask clockB editingRemoved (.status true (some recARenamed))).tasks =
        .arr [recB] ∧
      changedPositions [recB] [recB] = 0) ∧
    (editingDuplicate.tasks = .arr [recA, recADuplicate] ∧
      editingDuplicate.update = some "1" ∧
      (updateTask clockB editingDuplicate (.status true (some recARenamed))).tasks =
        .arr [recARenamed, recARenamed] ∧
      changedPositions [recA, recADuplicate] [recARenamed, recARenamed] = 2) ∧
    (editingAOfTwoBRemoved.tasks = .arr [recA] ∧
      editingAOfTwoBRemoved.update = some "1" ∧
      (updateTaskFinish editingAOfTwo (.status true (some recARenamed))
        editingAOfTwoBRemoved).tasks = .arr [recARenamed, recB] ∧
      [recARenamed, recB].length ≠ [recA].length) := by
  decide

/-! ## The displayed list -/

/-- A character is determined by its code. -/
theorem char_eq_of_toNat_eq (c d : Char) (h : c.toNat = d.toNat) : c = d := by
  rw [← Char.ofNat_toNat c, ← Char.ofNat_toNat d, h]

/-- The code of a character built from a number below the surrogate range. -/
theorem toNat_ofNat_small (n : Nat) (h : n < 0xd800) : (Char.ofNat n).toNat = n := by
  have hv : n.isValidChar := Or.inl h
  simp [Char.ofNat, hv, Char.ofNatAux, Char.toNat, UInt32.toNat]

/-- The code of a lowered character. -/
theorem toLower_toNat (c : Char) :
    c.toLower.toNat = if 65 ≤ c.toNat ∧ c.toNat ≤ 90 then c.toNat + 32 else c.toNat := by
  unfold Char.toLower
  by_cases h : c.toNat ≥ 65 ∧ c.toNat ≤ 90
  · have h' : 65 ≤ c.toNat ∧ c.toNat ≤ 90 := h
    simp only [h, h', and_self, if_true]
    exact toNat_ofNat_small _ (by omega)
  · have h' : ¬ (65 ≤ c.toNat ∧ c.toNat ≤ 90) := h
    simp only [h, h', if_false]

/-- Two characters have the same lowered form exactly when they are the same letter
up to case. -/
theorem toLower_eq_iff_sameLetter (c d : Char) :
    c.toLower = d.toLower ↔ sameLetter c d = true := by
  have hc := toLower_toNat c
  have hd := toLower_toNat d
  have hcd : c = d ↔ c.toNat = d.toNat :=
    ⟨fun h => by rw [h], char_eq_of_toNat_eq c d⟩
  have hlow : c.toLower = d.toLower ↔ c.toLower.toNat = d.toLower.toNat :=
    ⟨fun h => by rw [h], char_eq_of_toNat_eq _ _⟩
  rw [hlow, hc, hd]
  simp only [sameLetter, Bool.or_eq_true, Bool.and_eq_true, beq_iff_eq, decide_eq_true_eq,
    hcd]
  split_ifs <;> omega

/-- Two strings have the same ASCII-lowered form exactly when they agree character by
character up to case. -/
theorem map_toLower_eq_iff (w v : List Char) :
    w.map Char.toLower = v.map Char.toLower ↔
      List.Forall₂ (fun a b => sameLetter a b = true) v w := by
  induction w generalizing v with
  | nil =>
      cases v with
      | nil => simp
      | cons b v => simp
  | cons a w ih =>
      cases v with
      | nil => simp
      | cons b v =>
          simp only [List.map_cons, List.cons.injEq, List.forall₂_cons, ih,
            toLower_eq_iff_sameLetter]
          constructor
          · rintro ⟨h1, h2⟩
            exact ⟨(toLower_eq_iff_sameLetter b a).mp
              ((toLower_eq_iff_sameLetter a b).mpr h1).symm, h2⟩
          · rintro ⟨h1, h2⟩
            exact ⟨(toLower_eq_iff_sameLetter a b).mp
              ((toLower_eq_iff_sameLetter b a).mpr h1).symm, h2⟩

/-- A list occurs in a mapped list exactly when it is the image of an occurrence. -/
theorem infix_map_iff {α β : Type} (f : α → β) (l₁ : List β) (l : List α) :
    l₁ <:+: l.map f ↔ ∃ w, w <:+: l ∧ w.map f = l₁ := by
  constructor
  · rintro ⟨pre, post, h⟩
    obtain ⟨a, b, hab, ha, hb⟩ := List.map_eq_append_iff.mp h.symm
    obtain ⟨a1, w, haw, _, hw⟩ := List.map_eq_append_iff.mp ha
    exact ⟨w, ⟨a1, b, by rw [hab, haw]⟩, hw⟩
  · rintro ⟨w, ⟨pre, post, h⟩, hw⟩
    refine ⟨pre.map f, post.map f, ?_⟩
    rw [← h, ← hw]
    simp

/-- On ASCII strings the rendered test is containment up to the case of letters. -/
theorem includes_ascii_iff (J : CaseMapping) (name search : String)
    (hname : isAscii name = true) (hsearch : isAscii search = true) :
    includes (J.toLowerCase name) (J.toLowerCase search) = true ↔
      ∃ w, w <:+: name.data ∧
        List.Forall₂ (fun a b => sameLetter a b = true) search.data w := by
  rw [includes_iff, J.ascii name hname, J.ascii search hsearch]
  unfold asciiLower
  simp only [infix_map_iff, map_toLower_eq_iff]

/-- On a state whose names and search string are ASCII, every case mapping renders
the same list. -/
theorem displayedTasks_ascii (J : CaseMapping) (s : State) (ts : List TaskRecord)
    (hts : s.tasks = .arr ts) (hsearch : isAscii s.search = true)
    (hnames : ∀ t ∈ ts, isAscii t.name = true) :
    displayedTasks J s = displayedTasks asciiCasing s := by
  simp only [displayedTasks, hts, Option.some.injEq]
  apply List.filter_congr
  intro t ht
  rw [J.ascii _ (hnames t ht), J.ascii _ hsearch]
  rfl

/-- C6: for every task collection `ts` and every search string, the displayed list
is exactly the tasks of `ts` whose lower-cased name contains the lower-cased search
string as a substring, in the order of `ts`, whatever the engine's case tables are.
The empty search string yields the whole collection.  On ASCII names and search
strings the test is containment up to the case of the letters: the name has a
substring that agrees with the search string character by character, a capital
letter counting as its small letter.  Filtering the names `Buy milk`, `Walk dog`
with `BUY` yields `Buy milk`. -/
theorem displayedTasks_case_insensitive_substring (J : CaseMapping) (s : State)
    (ts : List TaskRecord) (hts : s.tasks = .arr ts) :
    displayedTasks J s = some (specFilter J ts s.search) ∧
    (∀ t, t ∈ specFilter J ts s.search ↔
      t ∈ ts ∧ (J.toLowerCase s.search).data <:+: (J.toLowerCase t.name).data) ∧
    (specFilter J ts s.search).Sublist ts ∧
    (s.search = "" → displayedTasks J s = some ts) ∧
    displayedTasks J (onSearchChange s "") = some ts ∧
    (isAscii s.search = true → ∀ t, isAscii t.name = true →
      (t ∈ specFilter J ts s.search ↔
        t ∈ ts ∧ ∃ w, w <:+: t.name.data ∧
          List.Forall₂ (fun a b => sameLetter a b = true) s.search.data w)) ∧
    (displayedTasks J (onSearchChange milkAndDog "BUY")).map
      (fun l => l.map (fun t => t.name)) = some ["Buy milk"] := by
  have hfilter : ∀ search : String,
      ts.filter (fun t => includes (J.toLowerCase t.name) (J.toLowerCase search)) =
        specFilter J ts search := by
    intro search
    unfold specFilter
    apply List.filter_congr
    intro t _
    by_cases h : (J.toLowerCase search).data <:+: (J.toLowerCase t.name).data
    · simp [h, (includes_iff _ _).mpr h]
    · have h2 : includes (J.toLowerCase t.name) (J.toLowerCase search) = false := by
        cases hinc : includes (J.toLowerCase t.name) (J.toLowerCase search) with
        | false => rfl
        | true => exact absurd ((includes_iff _ _).mp hinc) h
      simp [h, h2]
  have hempty : specFilter J ts "" = ts := by
    unfold specFilter
    apply List.filter_eq_self.mpr
    intro t _
    have h0 : (J.toLowerCase "").data = [] := by
      rw [J.ascii "" (by decide)]
      decide
    simp [h0]
  have hdisp : displayedTasks J s = some (specFilter J ts s.search) := by
    simp only [displayedTasks, hts, hfilter]
  have hmem : ∀ t, t ∈ specFilter J ts s.search ↔
      t ∈ ts ∧ (J.toLowerCase s.search).data <:+: (J.toLowerCase t.name).data := by
    intro t
    simp [specFilter, List.mem_filter]
  refine ⟨hdisp, hmem, List.filter_sublist _, ?_, ?_, ?_, ?_⟩
  · intro hs
    rw [hdisp, hs, hempty]
  · simp only [displayedTasks, onSearchChange, hts, hfilter, hempty]
  · intro hsearch t hname
    rw [hmem t, ← includes_iff, includes_ascii_iff J t.name s.search hname hsearch]
  · rw [displayedTasks_ascii J (onSearchChange milkAndDog "BUY")
      [recBuyMilk, recWalkDog] (by decide) (by decide) (by decide)]
    decide

/-- The list `Buy milk`, `Walk dog` searched with `BUY` and with the empty string
under the ASCII case mapping, and the list `Buy milk`, `ÉCOLE` searched with `école`
under a case mapping that lowers the accented capital as well. -/
theorem displayedTasks_case_insensitive_substring_witness :
    ((onSearchChange milkAndDog "BUY").tasks = .arr [recBuyMilk, recWalkDog] ∧
      ecoleSearch.tasks = .arr [recBuyMilk, recEcole]) ∧
    displayedTasks asciiCasing (onSearchChange milkAndDog "BUY") = some [recBuyMilk] ∧
    displayedTasks asciiCasing (onSearchChange milkAndDog "buy M") = some [recBuyMilk] ∧
    displayedTasks asciiCasing (onSearchChange milkAndDog "k d") = some [recWalkDog] ∧
    displayedTasks asciiCasing (onSearchChange milkAndDog "milk buy") = some [] ∧
    displayedTasks asciiCasing (onSearchChange milkAndDog "") =
      some [recBuyMilk, recWalkDog] ∧
    displayedTasks latin1Casing ecoleSearch = some [recEcole] ∧
    displayedTasks asciiCasing (onSearchChange milkAndDog "BUY") =
      some (specFilter asciiCasing [recBuyMilk, recWalkDog]
        (onSearchChange milkAndDog "BUY").search) ∧
    displayedTasks latin1Casing ecoleSearch =
      some (specFilter latin1Casing [recBuyMilk, recEcole] ecoleSearch.search) :=
  ⟨⟨by decide, by decide⟩, by decide, by decide, by decide, by decide, by decide,
    by decide,
    (displayedTasks_case_insensitive_substring asciiCasing
      (onSearchChange milkAndDog "BUY") [recBuyMilk, recWalkDog] (by decide)).1,
    (displayedTasks_case_insensitive_substring latin1Casing ecoleSearch
      [recBuyMilk, recEcole] (by decide)).1⟩

/-! ## The error message across operations -/

/-- C7 does not hold of `deleteTask` and `fetchTasks`: a successful DELETE or GET
leaves the error message as it was, whereas a successful POST or PUT clears it.  In
the trace `load [A]`, type `B`, `addTask` fails, `deleteTask 1` succeeds, the record
is removed and the message of the failed `addTask` is still shown. -/
theorem deleteTask_success_keeps_earlier_error :
    (∀ (s : State) (customId : String) (json : Option Unit),
      (deleteTask s customId (.status true json)).errorMsg = s.errorMsg) ∧
    (∀ (s : State) (body : TasksVal),
      (fetchTasks s (.status true (some body))).errorMsg = s.errorMsg) ∧
    (∀ (clock : Clock) (s : State) (r : TaskRecord), trim s.task.name ≠ "" →
      (addTask clock s (.status true (some r))).errorMsg = "") ∧
    (∀ (clock : Clock) (s : State) (ts : List TaskRecord) (r : TaskRecord),
      s.tasks = .arr ts → (updateTask clock s (.status true (some r))).errorMsg = "") ∧
    (addTask clockB loadedATypedB .transportError).errorMsg =
      "Server not available. Please try again later." ∧
    (deleteTask (addTask clockB loadedATypedB .transportError) "1"
      (.status true none)).tasks = .arr [] ∧
    (deleteTask (addTask clockB loadedATypedB .transportError) "1"
      (.status true none)).errorMsg = "Server not available. Please try again later." ∧
    (deleteTask (addTask clockB loadedATypedB .transportError) "1"
      (.status true none)).errorMsg ≠ "" := by
  refine ⟨?_, ?_, ?_, ?_, by decide, by decide, by decide, by decide⟩
  · intro s customId json
    cases hts : s.tasks with
    | arr ts => simp [deleteTask, deleteTaskStart, deleteTaskFinish, hts]
    | nonArr b => simp [deleteTask, hts]
  · intro s body
    simp [fetchTasks, fetchTasksStart, fetchTasksFinish]
  · intro clock s r hname
    rw [addTask_ok clock s r hname]
    simp [addTaskFinish]
  · intro clock s ts r hts
    simp [updateTask, updateTaskStart, updateTaskFinish, hts]

end TaskManager
